import Mathlib

/-!
Verification development for the `lcd_preview` package: shallow embeddings of
the pin-I/O emulator (`stubs_gpio.py`), the debounced repository watcher
(`watcher.py`), and the `MenuLCDBridge` lifecycle, frame and action-dispatch
logic (`menulcd_bridge.py`), together with theorems settling the behavioural
claims made about them.

Modelling conventions: Python dicts become association lists, Python ints
become `Int`/`Nat`, an operation that may raise returns an `Option String`
(the exception message) next to the mutated state, and reflection
(`getattr`/`callable`) is modelled by a method-behaviour table
`String → MBeh`.
-/

namespace Gpio

/-- Level constant `HIGH = 1` from stubs_gpio.py. -/
def HIGH : Int := 1

/-- Level constant `LOW = 0` from stubs_gpio.py. -/
def LOW : Int := 0

/-- Direction constant `IN = 0` from stubs_gpio.py. -/
def IN : Int := 0

/-- Direction constant `OUT = 1` from stubs_gpio.py. -/
def OUT : Int := 1

/-- Association-list model of a Python dict keyed by channel number. -/
abbrev Table (α : Type) := List (Int × α)

/-- Dict lookup: `d.get(ch)`. -/
def alookup {α : Type} : Table α → Int → Option α
  | [], _ => none
  | (c, v) :: rest, ch => if c = ch then some v else alookup rest ch

/-- Dict assignment: `d[ch] = v` (replaces an existing binding). -/
def aset {α : Type} : Table α → Int → α → Table α
  | [], ch, v => [(ch, v)]
  | (c, w) :: rest, ch, v =>
    if c = ch then (c, v) :: rest else (c, w) :: aset rest ch v

/-- Dict removal: `d.pop(ch, None)`. -/
def aremove {α : Type} : Table α → Int → Table α
  | [], _ => []
  | (c, w) :: rest, ch => if c = ch then rest else (c, w) :: aremove rest ch

/-- The module-level mutable state `_pin_state` / `_pin_dir` of stubs_gpio.py
(`_callbacks` is modelled separately for `simulate_edge`). -/
structure GpioState where
  pin_state : Table Int
  pin_dir : Table Int
deriving Repr, DecidableEq

/-- Fresh module state: both dicts empty. -/
def initState : GpioState := { pin_state := [], pin_dir := [] }

/-- `setup(channel, mode, pull_up_down, initial)`: records the direction and,
when `initial is not None`, stores the initial value as given — stubs_gpio.py
lines 52-55 perform no normalization of `initial`. -/
def setup (s : GpioState) (ch mode : Int) (initial : Option Int) : GpioState :=
  let s1 := { s with pin_dir := aset s.pin_dir ch mode }
  match initial with
  | some i => { s1 with pin_state := aset s1.pin_state ch i }
  | none => s1

/-- `input(channel)`: `_pin_state.get(channel, LOW)` (stubs_gpio.py line 59). -/
def input (s : GpioState) (ch : Int) : Int :=
  (alookup s.pin_state ch).getD LOW

/-- `output(channel, value)`: stores `HIGH if value else LOW`; Python int
truthiness is `value != 0` (stubs_gpio.py line 62). -/
def output (s : GpioState) (ch v : Int) : GpioState :=
  { s with pin_state := aset s.pin_state ch (if v = 0 then LOW else HIGH) }

/-- `cleanup(channel)`: clears everything when called without a channel,
otherwise removes the one channel (stubs_gpio.py lines 89-99). -/
def cleanup (s : GpioState) (ch : Option Int) : GpioState :=
  match ch with
  | none => initState
  | some c => { pin_state := aremove s.pin_state c, pin_dir := aremove s.pin_dir c }

/-- One emulator call, for reasoning about arbitrary call sequences. -/
inductive Op
  | setup (ch mode : Int) (initial : Option Int)
  | output (ch v : Int)
  | cleanup (ch : Option Int)
deriving Repr, DecidableEq

/-- Apply one call to the module state. -/
def stepOp (s : GpioState) : Op → GpioState
  | .setup ch mode i => setup s ch mode i
  | .output ch v => output s ch v
  | .cleanup ch => cleanup s ch

/-- Run a call sequence from the fresh module state. -/
def run (ops : List Op) : GpioState :=
  ops.foldl stepOp initState

/-- Predicate: a call's `initial` argument, if present, is a genuine level. -/
def goodInit : Op → Bool
  | .setup _ _ (some i) => i == LOW || i == HIGH
  | _ => true

/-- Predicate: the call writes to channel `ch`'s stored level. -/
def touches (ch : Int) : Op → Bool
  | .setup c _ (some _) => c == ch
  | .output c _ => c == ch
  | _ => false

/-- Registered edge callbacks `_callbacks`: a Python callable registered by
`add_event_detect` takes either one positional parameter or none. -/
inductive CBKind
  | oneParam
  | zeroParam
deriving Repr, DecidableEq

/-- Outcome of applying a callback to an argument list: either its body runs
(with the argument it received), or binding fails with a `TypeError` before
the body runs. -/
inductive Attempt
  | bodyRun (arg : Option Int)
  | typeErr
deriving Repr, DecidableEq

/-- Python call semantics for the two callback shapes. -/
def applyCB : CBKind → Option Int → Attempt
  | .oneParam, some a => .bodyRun (some a)
  | .oneParam, none => .typeErr
  | .zeroParam, some _ => .typeErr
  | .zeroParam, none => .bodyRun none

/-- `simulate_edge(channel)` (stubs_gpio.py lines 101-108): look up the
callback; if present call `cb(channel)`, and on `TypeError` fall back to
`cb()`. Returns the list of callback-body executions (with the argument each
received) and whether an exception escaped the call. -/
def simulate_edge (cbs : Table CBKind) (ch : Int) : List (Option Int) × Bool :=
  match alookup cbs ch with
  | none => ([], false)
  | some k =>
    match applyCB k (some ch) with
    | .bodyRun a => ([a], false)
    | .typeErr =>
      match applyCB k none with
      | .bodyRun a => ([a], false)
      | .typeErr => ([], true)

end Gpio

namespace Watch

/-- Happenings visible to the watcher machinery, stamped with a wall-clock
time in milliseconds: a filesystem change event appending to `_changed`
(watcher.py lines 69-70), or one iteration of the 50 ms poll in
`_debounce_loop` (lines 72-84). -/
inductive Ev
  | change (t : Nat) (p : String)
  | tick (t : Nat)
deriving Repr, DecidableEq

/-- State of the debounce loop: the accumulation buffer `_changed`, the time
of the previous flush `last_flush`, and the list of callback payloads
delivered so far. -/
structure WState where
  buffer : List String
  lastFlush : Nat
  flushes : List (List String)
deriving Repr, DecidableEq

/-- One happening. A poll tick flushes exactly when the buffer is non-empty
and at least the debounce interval has elapsed since the previous flush; the
payload is the de-duplicated buffer (`list({c for c in self._changed})`). -/
def stepEv (db : Nat) (s : WState) : Ev → WState
  | .change _ p => { s with buffer := s.buffer ++ [p] }
  | .tick t =>
    if s.buffer ≠ [] ∧ db ≤ t - s.lastFlush then
      { buffer := [], lastFlush := t, flushes := s.flushes ++ [s.buffer.dedup] }
    else s

/-- Run a timeline of happenings. -/
def run (db : Nat) (s : WState) (evs : List Ev) : WState :=
  evs.foldl (stepEv db) s

/-- A happening that cannot trigger a flush from a state whose previous flush
was at `lf`: any change event, or a tick strictly inside the debounce window. -/
def earlyB (db lf : Nat) : Ev → Bool
  | .change _ _ => true
  | .tick t => decide (t - lf < db)

/-- Paths of the change events of a timeline, in order. -/
def changesOf (evs : List Ev) : List String :=
  evs.filterMap fun e => match e with | .change _ p => some p | .tick _ => none

/-- Arrival times of the change events of a timeline, in order. -/
def changeTimes (evs : List Ev) : List Nat :=
  evs.filterMap fun e => match e with | .change t _ => some t | .tick _ => none

/-- Concrete timeline refuting the burst claim: the debounce interval is
200 ms, the poll runs every 50 ms, and three change events arrive at
t = 190, 210, 230 — every inter-event gap is 20 ms. -/
def cxEvents : List Ev :=
  [.tick 50, .tick 100, .tick 150, .change 190 "a", .tick 200,
   .change 210 "b", .change 230 "c", .tick 250, .tick 300, .tick 350, .tick 400]

end Watch

namespace FramePolicy

/-- Outcome of one internal `_extract_frame(self.instance)` attempt inside
`get_frame` (menulcd_bridge.py lines 140-148): the extraction raised, found
no image, or found an image (identified by a number standing for the frame). -/
inductive ExtractOut
  | raisedExtract
  | noFrame
  | frame (f : Nat)
deriving Repr, DecidableEq

/-- The part of the Bridge state that `get_frame` reads and writes:
`self._last_frame` and the error log `self.errors`. -/
structure FState where
  lastFrame : Option Nat
  errors : List String
deriving Repr, DecidableEq

/-- `get_frame()` (menulcd_bridge.py lines 140-148): on a successful
extraction the frame is retained and returned; when extraction yields
nothing, the retained frame is returned; when extraction raises, the
exception is caught, logged via `_push_error`, and the retained frame is
returned. The function itself never raises — every branch returns a value. -/
def get_frame (s : FState) (ext : ExtractOut) : Option Nat × FState :=
  match ext with
  | .raisedExtract => (s.lastFrame, { s with errors := s.errors ++ ["get_frame failed"] })
  | .noFrame => (s.lastFrame, s)
  | .frame f => (some f, { s with lastFrame := some f })

/-- Run a sequence of `get_frame()` calls, one per extraction outcome,
collecting the returned values in order. -/
def runCalls (s : FState) : List ExtractOut → FState × List (Option Nat)
  | [] => (s, [])
  | e :: rest =>
    let c := get_frame s e
    let t := runCalls c.2 rest
    (t.1, c.1 :: t.2)

/-- Whether the extraction outcome fails to produce a frame. -/
def noFrameB : ExtractOut → Bool
  | .frame _ => false
  | _ => true

end FramePolicy

namespace FrameHeap

/-- Object identity: PIL images are heap objects handed around by reference. -/
abbrev Ref := Nat

/-- Heap assigning pixel data to every live image object. -/
abbrev Heap := Ref → List Nat

/-- The aliasing-relevant part of the Bridge: the hosted instance's live
framebuffer object found by `_extract_frame` (menulcd_bridge.py lines
342-369 return the attribute object itself, not a copy of it), and
`self._last_frame`. -/
structure HBridge where
  instBuf : Option Ref
  lastFrame : Option Ref
deriving Repr, DecidableEq

/-- `_extract_frame`: yields the instance's framebuffer object by reference. -/
def _extract_frame (b : HBridge) : Option Ref := b.instBuf

/-- `get_frame()` at the object level (menulcd_bridge.py lines 140-148):
`self._last_frame = frame; return self._last_frame` — the returned value is
the extracted object itself, with no copy taken. -/
def get_frame (b : HBridge) : Option Ref × HBridge :=
  match _extract_frame b with
  | some r => (some r, { b with lastFrame := some r })
  | none => (b.lastFrame, b)

/-- `step()` (menulcd_bridge.py lines 150-172) invokes the hosted module's
render method, which redraws its framebuffer in place; `draw` is the hosted
renderer's effect on the pixel data. -/
def step (b : HBridge) (draw : List Nat → List Nat) (h : Heap) : Heap :=
  match b.instBuf with
  | some r => fun r2 => if r2 = r then draw (h r) else h r2
  | none => h

/-- Concrete bridge whose hosted instance exposes framebuffer object 0. -/
def pb0 : HBridge := { instBuf := some 0, lastFrame := none }

/-- Concrete initial heap: every object blank. -/
def h0 : Heap := fun _ => []

/-- Concrete hosted renderer that draws a pixel into the framebuffer. -/
def draw0 : List Nat → List Nat := fun l => 0 :: l

end FrameHeap

namespace Bridge

/-- Environment a `_import_and_create()` attempt runs against
(menulcd_bridge.py lines 243-335): whether `lib/menulcd.py` exists on disk,
whether the upstream `ArgumentParser` and `ComponentInitializer` symbols
resolve, what constructing `ComponentInitializer(args)` yields (an instance
identifier, or an exception message), and the result of the initial
frame-size probe. -/
structure CEnv where
  libExists : Bool
  parserFound : Bool
  ciFound : Bool
  ciResult : Except String Nat
  extracted : Option (Nat × Nat)
deriving Repr

/-- Bridge state touched by the construction protocol: the repository path,
the display profile, `self.instance` (an identifier, `none` when no
construction ever succeeded), `self._native_size`, and the error log. -/
structure BState where
  repo_path : String
  display_profile : Option String
  inst : Option Nat
  native_size : Nat × Nat
  errors : List String
deriving Repr, DecidableEq

/-- `_push_error(msg)` (menulcd_bridge.py lines 393-395). -/
def push_error (s : BState) (msg : String) : BState :=
  { s with errors := s.errors ++ [msg] }

/-- Check `"FreeSansBold.ttf" in msg or "FreeMonoBold.ttf" in msg`
(menulcd_bridge.py line 320). -/
def fontCited (msg : String) : Bool :=
  (msg.splitOn "FreeSansBold.ttf").length > 1 || (msg.splitOn "FreeMonoBold.ttf").length > 1

/-- Diagnostic pushed when the initializer failure cites the font files. -/
def fontErrMsg : String :=
  "Missing fonts FreeSansBold.ttf / FreeMonoBold.ttf. Place them in repo fonts or set PIANO_LED_FONTDIR."

/-- `_import_and_create()` (menulcd_bridge.py lines 243-335). Failure paths,
in source order: missing `lib/menulcd.py` raises `BridgeError`; a missing
`ArgumentParser` or `ComponentInitializer` raises `BridgeError`; a failing
`ComponentInitializer(args)` pushes the font diagnostic when the message
cites the font files and re-raises. Only after a successful construction is
`self.instance` assigned (line 325); no failure path clears or assigns it.
Returns the mutated state and the exception message, if one was raised. -/
def _import_and_create (env : CEnv) (s : BState) : BState × Option String :=
  if env.libExists = false then
    (s, some ("Missing file: " ++ s.repo_path ++ "/lib/menulcd.py"))
  else if env.parserFound = false then
    (s, some "lib.argument_parser.ArgumentParser not found")
  else if env.ciFound = false then
    (s, some "lib.component_initializer.ComponentInitializer not found")
  else
    match env.ciResult with
    | .error e => (if fontCited e then push_error s fontErrMsg else s, some e)
    | .ok i =>
      let s1 := { s with inst := some i }
      match env.extracted with
      | some sz => ({ s1 with native_size := sz }, none)
      | none => (s1, none)

/-- `reload()` (menulcd_bridge.py lines 174-180): run the construction
protocol; on failure push `"Reload failed: ..."` and re-raise. -/
def reload (env : CEnv) (s : BState) : BState × Option String :=
  match _import_and_create env s with
  | (s1, some e) => (push_error s1 ("Reload failed: " ++ e), some e)
  | (s1, none) => (s1, none)

/-- The supported display profiles (menulcd_bridge.py line 466). -/
def valid_profile (p : Option String) : Bool :=
  p == none || p == some "1in44" || p == some "1in3"

/-- `set_display_profile(profile, reload)` (menulcd_bridge.py lines 464-470):
an unsupported value raises `BridgeError` before any assignment; a supported
value is stored and, when requested, a reload is run. Returns the mutated
state, the exception message if one was raised, and whether a reload was
triggered. -/
def set_display_profile (env : CEnv) (s : BState) (profile : Option String)
    (doReload : Bool) : (BState × Option String) × Bool :=
  if valid_profile profile = false then
    ((s, some "Invalid display profile (expected 1in44 or 1in3 or None)"), false)
  else
    let s1 := { s with display_profile := profile }
    if doReload then (((reload env s1).1, (reload env s1).2), true)
    else ((s1, none), false)

/-- Bridge that already holds a live instance (number 7) from a past success. -/
def s_live : BState :=
  { repo_path := "repo", display_profile := none, inst := some 7,
    native_size := (320, 240), errors := [] }

/-- Environment in which `lib/menulcd.py` is missing from the repository. -/
def env_missing : CEnv :=
  { libExists := false, parserFound := true, ciFound := true,
    ciResult := .ok 1, extracted := none }

/-- Healthy environment in which construction succeeds. -/
def env_ok : CEnv :=
  { libExists := true, parserFound := true, ciFound := true,
    ciResult := .ok 1, extracted := some (128, 128) }

end Bridge

namespace Dispatch

/-- Behaviour of one method name on the current hosted instance: the
attribute is absent (or not callable), or calling it returns normally, or
calling it raises. This is the `getattr`/`callable` view the Bridge takes of
the instance. -/
inductive MBeh
  | absent
  | ok
  | raises
deriving Repr, DecidableEq

/-- The hosted instance, seen as a method-behaviour table. -/
structure Inst where
  beh : String → MBeh

/-- Result of the candidate loop inside `_call_if_exists`: a candidate
returned normally, a candidate raised with `swallow=False`, or the loop ran
out of candidates. -/
inductive LoopOut
  | found
  | raisedOut
  | exhausted
deriving Repr, DecidableEq

/-- The `for name in candidates` loop of `_call_if_exists`
(menulcd_bridge.py lines 372-381): skip names that are not callable; call
the first callable one; on an exception, push an error and either re-raise
(`swallow=False`) or continue with the next candidate (`swallow=True`).
Returns the names whose bodies were invoked, the errors pushed, and how the
loop ended. -/
def loopCands (inst : Inst) (swallow : Bool) : List String → List String × List String × LoopOut
  | [] => ([], [], .exhausted)
  | n :: rest =>
    match inst.beh n with
    | .absent => loopCands inst swallow rest
    | .ok => ([n], [], .found)
    | .raises =>
      if swallow then
        let t := loopCands inst swallow rest
        (n :: t.1, (n ++ " error") :: t.2.1, t.2.2)
      else ([n], [n ++ " error"], .raisedOut)

/-- `_call_if_exists(candidates, args, swallow)` (menulcd_bridge.py lines
371-391): run the candidate loop; if it exhausts, fall back to the generic
`handle_key` handler, invoked with the first candidate's name, provided the
candidate list is non-empty. Returns invoked names, pushed errors, and
`some b` for a normal return of `b`, `none` when an exception propagated. -/
def _call_if_exists (inst : Inst) (candidates : List String) (swallow : Bool) :
    List String × List String × Option Bool :=
  let t := loopCands inst swallow candidates
  match t.2.2 with
  | .found => (t.1, t.2.1, some true)
  | .raisedOut => (t.1, t.2.1, none)
  | .exhausted =>
    match inst.beh "handle_key", candidates with
    | .absent, _ => (t.1, t.2.1, some false)
    | _, [] => (t.1, t.2.1, some false)
    | .ok, _ :: _ => (t.1 ++ ["handle_key"], t.2.1, some true)
    | .raises, _ :: _ =>
      if swallow then (t.1 ++ ["handle_key"], t.2.1 ++ ["handle_key error"], some false)
      else (t.1 ++ ["handle_key"], t.2.1 ++ ["handle_key error"], none)

/-- Result of one logical action call. -/
structure ActRes where
  invoked : List String
  errors : List String
  raised : Bool
deriving Repr, DecidableEq

/-- The shape shared by `action_up/down/left/right/enter/back`
(menulcd_bridge.py lines 397-461): try the semantic primary method first; if
it is callable and returns, stop; if it raises, push an error and fall
through; then run `_call_if_exists` on the generic fallback names with the
default `swallow=False`. -/
def runAction (inst : Inst) (primary : String) (fallbacks : List String) : ActRes :=
  match inst.beh primary with
  | .ok => ⟨[primary], [], false⟩
  | .absent =>
    let t := _call_if_exists inst fallbacks false
    ⟨t.1, t.2.1, t.2.2.isNone⟩
  | .raises =>
    let t := _call_if_exists inst fallbacks false
    ⟨primary :: t.1, (primary ++ " error") :: t.2.1, t.2.2.isNone⟩

/-- The six logical actions as (semantic primary, generic fallbacks) rows,
transcribed from menulcd_bridge.py lines 397-461. -/
def actionTable : List (String × List String) :=
  [("change_pointer", ["button_up", "on_up", "nav_up", "up"]),
   ("change_pointer", ["button_down", "on_down", "nav_down", "down"]),
   ("change_value", ["button_left", "on_left", "nav_left", "left"]),
   ("change_value", ["button_right", "on_right", "nav_right", "right"]),
   ("enter_menu", ["button_enter", "on_enter", "select", "enter", "ok"]),
   ("go_back", ["button_back", "on_back", "back", "cancel"])]

/-- Full candidate list of an action in documented priority order: semantic
primary, generic fallbacks, then the generic key handler. -/
def fullCands (primary : String) (fallbacks : List String) : List String :=
  primary :: (fallbacks ++ ["handle_key"])

/-- Candidate names tried by `action_encoder` (menulcd_bridge.py line 201). -/
def encCands : List String := ["encoder", "on_encoder", "rotate", "on_rotate"]

/-- Direction of a fallback navigation call issued by `action_encoder`. -/
inductive Act
  | up
  | down
deriving Repr, DecidableEq

/-- Dispatch row of `action_up`. -/
def upRow : String × List String := ("change_pointer", ["button_up", "on_up", "nav_up", "up"])

/-- Dispatch row of `action_down`. -/
def downRow : String × List String := ("change_pointer", ["button_down", "on_down", "nav_down", "down"])

/-- The `for _ in range(abs(delta))` loops of `action_encoder`
(menulcd_bridge.py lines 203-208): issue the navigation action repeatedly;
an exception escaping one call aborts the loop. -/
def iterActions (inst : Inst) (a : Act) (pr : String) (fbs : List String) :
    Nat → List (Act × ActRes)
  | 0 => []
  | n + 1 =>
    let r := runAction inst pr fbs
    if r.raised then [(a, r)] else (a, r) :: iterActions inst a pr fbs n

/-- Result of `action_encoder`: the trace of the dedicated-encoder dispatch,
the navigation calls issued as fallback, and whether an exception escaped. -/
structure EncRes where
  encInvoked : List String
  encErrors : List String
  issued : List (Act × ActRes)
  raised : Bool
deriving Repr

/-- `action_encoder(delta)` (menulcd_bridge.py lines 199-208): first try the
dedicated encoder candidates with `swallow=True`; if that dispatch reports
success, stop; otherwise issue `abs(delta)` repeated `action_down` calls for
positive `delta`, `abs(delta)` repeated `action_up` calls for negative
`delta`, and nothing for zero. -/
def action_encoder (inst : Inst) (delta : Int) : EncRes :=
  let t := _call_if_exists inst encCands true
  match t.2.2 with
  | some true => ⟨t.1, t.2.1, [], false⟩
  | none => ⟨t.1, t.2.1, [], true⟩
  | some false =>
    if 0 < delta then
      let l := iterActions inst .down downRow.1 downRow.2 delta.natAbs
      ⟨t.1, t.2.1, l, l.any fun e => e.2.raised⟩
    else if delta < 0 then
      let l := iterActions inst .up upRow.1 upRow.2 delta.natAbs
      ⟨t.1, t.2.1, l, l.any fun e => e.2.raised⟩
    else ⟨t.1, t.2.1, [], false⟩

/-- Instance exposing only the generic `nav_up` fallback. -/
def instNav : Inst := ⟨fun n => if n = "nav_up" then .ok else .absent⟩

/-- Instance exposing no action method at all. -/
def instEmpty : Inst := ⟨fun _ => .absent⟩

/-- Instance exposing no method at all (encoder fallback scenario). -/
def instPlain : Inst := ⟨fun _ => .absent⟩

end Dispatch

namespace Gpio

theorem alookup_aset_ne {α : Type} (t : Table α) (c ch : Int) (v : α) (h : ¬c = ch) :
    alookup (aset t c v) ch = alookup t ch := by
  induction t with
  | nil => simp [aset, alookup, h]
  | cons e rest ih =>
    obtain ⟨c0, w⟩ := e
    by_cases hc : c0 = c
    · subst hc
      simp [aset, alookup, h]
    · simp only [aset, alookup, if_neg hc]
      by_cases hch : c0 = ch
      · simp [alookup, hch]
      · simp [alookup, hch, ih]

theorem alookup_aremove_none {α : Type} (t : Table α) (c ch : Int)
    (h : alookup t ch = none) : alookup (aremove t c) ch = none := by
  induction t with
  | nil => simp [aremove, alookup]
  | cons e rest ih =>
    obtain ⟨c0, w⟩ := e
    by_cases hch : c0 = ch
    · simp [alookup, hch] at h
    · simp only [alookup, if_neg hch] at h
      by_cases hc : c0 = c
      · simp [aremove, hc, h]
      · simp [aremove, hc, alookup, hch, ih h]

theorem aset_all_values {α : Type} (q : α → Bool) (t : Table α) (ch : Int) (v : α)
    (ht : t.all (fun e => q e.2) = true) (hv : q v = true) :
    (aset t ch v).all (fun e => q e.2) = true := by
  induction t with
  | nil => simp [aset, hv]
  | cons e rest ih =>
    obtain ⟨c0, w⟩ := e
    rw [List.all_cons, Bool.and_eq_true] at ht
    obtain ⟨hw, hrest⟩ := ht
    by_cases hc : c0 = ch
    · simp [aset, hc, hv, hrest]
    · simp [aset, hc, hw, ih hrest]

theorem aremove_all_values {α : Type} (q : α → Bool) (t : Table α) (ch : Int)
    (ht : t.all (fun e => q e.2) = true) :
    (aremove t ch).all (fun e => q e.2) = true := by
  induction t with
  | nil => simp [aremove]
  | cons e rest ih =>
    obtain ⟨c0, w⟩ := e
    rw [List.all_cons, Bool.and_eq_true] at ht
    obtain ⟨hw, hrest⟩ := ht
    by_cases hc : c0 = ch
    · simpa [aremove, hc] using hrest
    · simp [aremove, hc, hw, ih hrest]

theorem alookup_all_values {α : Type} (q : α → Bool) (t : Table α) (ch : Int) (v : α)
    (ht : t.all (fun e => q e.2) = true) (h : alookup t ch = some v) : q v = true := by
  induction t with
  | nil => simp [alookup] at h
  | cons e rest ih =>
    obtain ⟨c0, w⟩ := e
    rw [List.all_cons, Bool.and_eq_true] at ht
    obtain ⟨hw, hrest⟩ := ht
    by_cases hc : c0 = ch
    · simp only [alookup, if_pos hc] at h
      cases h
      exact hw
    · simp only [alookup, if_neg hc] at h
      exact ih hrest h

/-- Invariant: every stored level in `_pin_state` is a genuine level. -/
def stateBin (s : GpioState) : Bool :=
  s.pin_state.all fun e => e.2 == LOW || e.2 == HIGH

theorem stepOp_bin (s : GpioState) (op : Op) (hs : stateBin s = true)
    (hop : goodInit op = true) : stateBin (stepOp s op) = true := by
  unfold stateBin at hs ⊢
  cases op with
  | setup ch mode i =>
    cases i with
    | none => simpa [stepOp, setup] using hs
    | some iv =>
      simp only [goodInit] at hop
      simp only [stepOp, setup]
      exact aset_all_values (fun x => x == LOW || x == HIGH) _ _ _ hs hop
  | output ch v =>
    simp only [stepOp, output]
    apply aset_all_values (fun x => x == LOW || x == HIGH) _ _ _ hs
    by_cases hv : v = 0 <;> simp [hv, LOW, HIGH]
  | cleanup co =>
    cases co with
    | none => simp [stepOp, cleanup, initState]
    | some c =>
      simp only [stepOp, cleanup]
      exact aremove_all_values (fun x => x == LOW || x == HIGH) _ _ hs

theorem foldl_bin (ops : List Op) :
    ∀ s : GpioState, stateBin s = true → ops.all goodInit = true →
      stateBin (ops.foldl stepOp s) = true := by
  induction ops with
  | nil => intro s hs _; exact hs
  | cons op rest ih =>
    intro s hs h
    rw [List.all_cons, Bool.and_eq_true] at h
    obtain ⟨hop, hrest⟩ := h
    exact ih (stepOp s op) (stepOp_bin s op hs hop) hrest

theorem stepOp_untouched (s : GpioState) (op : Op) (ch : Int)
    (hop : touches ch op = false) (h : alookup s.pin_state ch = none) :
    alookup (stepOp s op).pin_state ch = none := by
  cases op with
  | setup c mode i =>
    cases i with
    | none => simpa [stepOp, setup] using h
    | some iv =>
      simp only [touches, beq_eq_false_iff_ne, ne_eq] at hop
      simp only [stepOp, setup]
      rw [alookup_aset_ne _ _ _ _ hop]
      exact h
  | output c v =>
    simp only [touches, beq_eq_false_iff_ne, ne_eq] at hop
    simp only [stepOp, output]
    rw [alookup_aset_ne _ _ _ _ hop]
    exact h
  | cleanup co =>
    cases co with
    | none => simp [stepOp, cleanup, initState, alookup]
    | some c =>
      simp only [stepOp, cleanup]
      exact alookup_aremove_none _ _ _ h

theorem foldl_untouched (ops : List Op) (ch : Int) :
    ∀ s : GpioState, alookup s.pin_state ch = none →
      ops.all (fun op => !touches ch op) = true →
      alookup ((ops.foldl stepOp s)).pin_state ch = none := by
  induction ops with
  | nil => intro s hs _; exact hs
  | cons op rest ih =>
    intro s hs h
    rw [List.all_cons, Bool.and_eq_true] at h
    obtain ⟨hop, hrest⟩ := h
    rw [Bool.not_eq_true'] at hop
    exact ih (stepOp s op) (stepOp_untouched s op ch hop hs) hrest

/-- C10 counterexample: the claim says `read` always returns exactly HIGH (1)
or LOW (0) for every sequence of setup/write/read/cleanup operations, but
`setup` stores its `initial` argument unnormalized, so after
`setup(5, OUT, initial=2)` the read of channel 5 returns 2, which is neither
level. -/
theorem gpio_setup_initial_unnormalized_cx :
    input (run [Op.setup 5 OUT (some 2)]) 5 = 2 ∧
    ¬(input (run [Op.setup 5 OUT (some 2)]) 5 = LOW ∨
      input (run [Op.setup 5 OUT (some 2)]) 5 = HIGH) := by decide

/-- C10 (amended): provided every `setup` call's `initial` argument, when
present, is itself a level (0 or 1), `read(channel)` always returns exactly
HIGH (1) or LOW (0) after any sequence of setup/write/cleanup operations —
`write` normalizes any truthy value to HIGH and anything else to LOW — and a
channel whose stored level was never written reads as LOW. -/
theorem gpio_levels_binary (ops : List Op) (ch : Int) (h : ops.all goodInit = true) :
    (input (run ops) ch = LOW ∨ input (run ops) ch = HIGH) ∧
    (ops.all (fun op => !touches ch op) = true → input (run ops) ch = LOW) := by
  constructor
  · have hbin : stateBin (run ops) = true :=
      foldl_bin ops initState (by decide) h
    unfold input
    cases hl : alookup (run ops).pin_state ch with
    | none => left; rfl
    | some v =>
      unfold stateBin at hbin
      have hq := alookup_all_values (fun x => x == LOW || x == HIGH) _ _ _ hbin hl
      simp only [Option.getD_some]
      rw [Bool.or_eq_true] at hq
      rcases hq with hv | hv
      · left; exact eq_of_beq hv
      · right; exact eq_of_beq hv
  · intro hu
    have hn : alookup (run ops).pin_state ch = none :=
      foldl_untouched ops ch initState (by simp [initState, alookup]) hu
    unfold input
    rw [hn]
    rfl

/-- Witness for `gpio_levels_binary` at a concrete call sequence. -/
theorem gpio_levels_binary_witness :
    (input (run [Op.setup 5 OUT (some 1), Op.output 6 7, Op.cleanup none]) 6 = LOW ∨
     input (run [Op.setup 5 OUT (some 1), Op.output 6 7, Op.cleanup none]) 6 = HIGH) ∧
    ([Op.setup 5 OUT (some 1), Op.output 6 7, Op.cleanup none].all (fun op => !touches 6 op) = true →
     input (run [Op.setup 5 OUT (some 1), Op.output 6 7, Op.cleanup none]) 6 = LOW) :=
  gpio_levels_binary [Op.setup 5 OUT (some 1), Op.output 6 7, Op.cleanup none] 6 (by decide)

/-- C5: `simulate_edge(channel)` runs the callback registered for that
channel exactly once — passing the channel to a one-parameter callback,
calling a zero-parameter callback with no argument after the internal
`TypeError` fallback — is a no-op when no callback is registered, and never
lets an exception escape for either callback shape. -/
theorem simulate_edge_exactly_once (cbs : Table CBKind) (ch : Int) :
    (simulate_edge cbs ch).1.length = (if (alookup cbs ch).isSome then 1 else 0) ∧
    (simulate_edge cbs ch).2 = false ∧
    (alookup cbs ch = some CBKind.oneParam → (simulate_edge cbs ch).1 = [some ch]) ∧
    (alookup cbs ch = some CBKind.zeroParam → (simulate_edge cbs ch).1 = [none]) := by
  cases h : alookup cbs ch with
  | none => simp [simulate_edge, h]
  | some k => cases k <;> simp [simulate_edge, h, applyCB]

/-- Witness for `simulate_edge_exactly_once` at a registry holding a
one-parameter callback on channel 3. -/
theorem simulate_edge_exactly_once_witness :
    (simulate_edge [(3, CBKind.oneParam)] 3).1.length
        = (if (alookup [(3, CBKind.oneParam)] 3).isSome then 1 else 0) ∧
    (simulate_edge [(3, CBKind.oneParam)] 3).2 = false ∧
    (alookup [(3, CBKind.oneParam)] 3 = some CBKind.oneParam →
      (simulate_edge [(3, CBKind.oneParam)] 3).1 = [some 3]) ∧
    (alookup [(3, CBKind.oneParam)] 3 = some CBKind.zeroParam →
      (simulate_edge [(3, CBKind.oneParam)] 3).1 = [none]) :=
  simulate_edge_exactly_once [(3, CBKind.oneParam)] 3

end Gpio

namespace Watch

theorem run_early (db lf : Nat) (fs : List (List String)) :
    ∀ (evs : List Ev) (buf : List String), evs.all (earlyB db lf) = true →
      run db ⟨buf, lf, fs⟩ evs = ⟨buf ++ changesOf evs, lf, fs⟩ := by
  intro evs
  induction evs with
  | nil => intro buf _; simp [run, changesOf]
  | cons e rest ih =>
    intro buf h
    rw [List.all_cons, Bool.and_eq_true] at h
    obtain ⟨he, hrest⟩ := h
    cases e with
    | change t p =>
      show run db ⟨buf ++ [p], lf, fs⟩ rest = _
      rw [ih _ hrest]
      simp [changesOf, List.filterMap_cons]
    | tick t =>
      have hlt : t - lf < db := by simpa [earlyB] using he
      have hst : stepEv db ⟨buf, lf, fs⟩ (.tick t) = ⟨buf, lf, fs⟩ := by
        simp only [stepEv]
        rw [if_neg]
        rintro ⟨-, hle⟩
        exact absurd hle (Nat.not_le.mpr hlt)
      show run db (stepEv db ⟨buf, lf, fs⟩ (.tick t)) rest = _
      rw [hst, ih _ hrest]
      simp [changesOf, List.filterMap_cons]

theorem run_flush (db lf T : Nat) (fs : List (List String)) (buf : List String)
    (evs : List Ev) (h : evs.all (earlyB db lf) = true) (hT : db ≤ T - lf)
    (hne : buf ++ changesOf evs ≠ []) :
    run db ⟨buf, lf, fs⟩ (evs ++ [.tick T])
      = ⟨[], T, fs ++ [(buf ++ changesOf evs).dedup]⟩ := by
  unfold run
  rw [List.foldl_append]
  have h1 : List.foldl (stepEv db) ⟨buf, lf, fs⟩ evs = ⟨buf ++ changesOf evs, lf, fs⟩ :=
    run_early db lf fs evs buf h
  rw [h1]
  show stepEv db _ (.tick T) = _
  simp only [stepEv]
  rw [if_pos ⟨hne, hT⟩]

/-- C4 counterexample: with a 200 ms debounce interval and a 50 ms poll, the
three change events of `cxEvents` arrive at t = 190, 210, 230 — every
inter-event gap is 20 ms, far below the debounce interval — yet the watcher
delivers two callbacks, `["a"]` and `["b", "c"]`, because the loop flushes
whenever 200 ms have elapsed since the previous flush, not since the last
event. The claim predicts exactly one callback for this burst. -/
theorem watcher_burst_split_cx :
    changeTimes cxEvents = [190, 210, 230] ∧
    210 - 190 < 200 ∧ 230 - 210 < 200 ∧
    (run 200 ⟨[], 0, []⟩ cxEvents).flushes = [["a"], ["b", "c"]] := by decide

/-- C4 (amended): the debounce window is measured from the previous flush,
not from the most recent event. All change events that arrive between the
previous flush and the first poll tick at which the debounce interval has
elapsed since that flush are delivered in exactly one callback whose payload
is the de-duplicated set of their paths; two such window-confined bursts,
each closed off by a qualifying poll tick, are delivered in exactly two
callbacks. (A burst straddling a qualifying tick may be split, as the
counterexample shows.) -/
theorem watcher_window_debounce (db lf0 : Nat) (evs1 : List Ev) (T1 : Nat)
    (evs2 : List Ev) (T2 : Nat)
    (h1 : evs1.all (earlyB db lf0) = true) (h2 : changesOf evs1 ≠ [])
    (h3 : db ≤ T1 - lf0)
    (h4 : evs2.all (earlyB db T1) = true) (h5 : changesOf evs2 ≠ [])
    (h6 : db ≤ T2 - T1) :
    (run db ⟨[], lf0, []⟩ (evs1 ++ [.tick T1])).flushes = [(changesOf evs1).dedup] ∧
    (run db ⟨[], lf0, []⟩ ((evs1 ++ [.tick T1]) ++ (evs2 ++ [.tick T2]))).flushes
      = [(changesOf evs1).dedup, (changesOf evs2).dedup] := by
  have hr1 : run db ⟨[], lf0, []⟩ (evs1 ++ [.tick T1])
      = ⟨[], T1, [(changesOf evs1).dedup]⟩ := by
    have := run_flush db lf0 T1 [] [] evs1 h1 h3 (by simpa using h2)
    simpa using this
  constructor
  · rw [hr1]
  · have hsplit : run db ⟨[], lf0, []⟩ ((evs1 ++ [.tick T1]) ++ (evs2 ++ [.tick T2]))
        = run db (run db ⟨[], lf0, []⟩ (evs1 ++ [.tick T1])) (evs2 ++ [.tick T2]) := by
      unfold run
      rw [List.foldl_append]
    rw [hsplit, hr1]
    have hr2 := run_flush db T1 T2 [(changesOf evs1).dedup] [] evs2 h4 h6 (by simpa using h5)
    rw [hr2]
    simp

/-- Witness for `watcher_window_debounce` at a concrete pair of bursts. -/
theorem watcher_window_debounce_witness :
    (run 200 ⟨[], 0, []⟩ ([.change 10 "x", .change 20 "x", .change 30 "y"] ++ [.tick 200])).flushes
      = [(changesOf [.change 10 "x", .change 20 "x", .change 30 "y"]).dedup] ∧
    (run 200 ⟨[], 0, []⟩ (([.change 10 "x", .change 20 "x", .change 30 "y"] ++ [.tick 200])
        ++ ([.change 250 "z"] ++ [.tick 400]))).flushes
      = [(changesOf [.change 10 "x", .change 20 "x", .change 30 "y"]).dedup,
         (changesOf [.change 250 "z"]).dedup] :=
  watcher_window_debounce 200 0 [.change 10 "x", .change 20 "x", .change 30 "y"] 200
    [.change 250 "z"] 400 (by decide) (by decide) (by decide) (by decide) (by decide) (by decide)

end Watch

namespace FramePolicy

theorem get_frame_val_eq (s : FState) (e : ExtractOut) :
    (get_frame s e).1 = (get_frame s e).2.lastFrame := by
  cases e <;> rfl

theorem runCalls_outputs (ops : List ExtractOut) :
    ∀ s : FState, (runCalls s ops).2
      = (List.range ops.length).map (fun k => (runCalls s (ops.take (k + 1))).1.lastFrame) := by
  induction ops with
  | nil => intro s; rfl
  | cons e rest ih =>
    intro s
    show (get_frame s e).1 :: (runCalls (get_frame s e).2 rest).2 = _
    rw [ih (get_frame s e).2]
    rw [List.length_cons, List.range_succ_eq_map, List.map_cons, List.map_map]
    congr 1
    exact get_frame_val_eq s e

theorem runCalls_none_iff (ops : List ExtractOut) :
    ∀ s : FState, ((runCalls s ops).1.lastFrame = none
      ↔ (s.lastFrame = none ∧ ops.all noFrameB = true)) := by
  induction ops with
  | nil => intro s; simp [runCalls]
  | cons e rest ih =>
    intro s
    show ((runCalls (get_frame s e).2 rest).1.lastFrame = none ↔ _)
    rw [ih]
    cases e with
    | raisedExtract => simp [get_frame, noFrameB, List.all_cons]
    | noFrame => simp [get_frame, noFrameB, List.all_cons]
    | frame f => simp [get_frame, noFrameB, List.all_cons]

/-- C8: `get_frame()` never raises — it is total over every extraction
outcome, including an extraction that itself raises — and over any sequence
of calls every value it returns equals the frame retained after that call,
so a failing or empty extraction yields the last successfully produced
frame; the retained frame is `none` exactly when it started as `none` and no
call's extraction ever produced a frame. -/
theorem get_frame_policy_last_good (s : FState) (ops : List ExtractOut) :
    (runCalls s ops).2
      = (List.range ops.length).map (fun k => (runCalls s (ops.take (k + 1))).1.lastFrame) ∧
    ((runCalls s ops).1.lastFrame = none
      ↔ (s.lastFrame = none ∧ ops.all noFrameB = true)) :=
  ⟨runCalls_outputs ops s, runCalls_none_iff ops s⟩

end FramePolicy

namespace FrameHeap

/-- C3 counterexample: the claim says a frame returned by `get_frame` is a
copy that no subsequent Bridge operation mutates, but `get_frame` hands out
the hosted instance's live framebuffer object (reference 0 here), and the
next `step()` — whose hosted renderer `draw0` redraws that framebuffer in
place — changes the very object the caller received. -/
theorem get_frame_alias_mutation_cx :
    (get_frame pb0).1 = some 0 ∧
    step (get_frame pb0).2 draw0 h0 0 ≠ h0 0 := by decide

/-- C3 (amended): `get_frame` returns the frame by reference, not by value:
whenever extraction succeeds, the object handed to the caller is exactly the
hosted instance's live framebuffer, which the Bridge also retains as its
last frame, so an in-place redraw by a later `step()` mutates the caller's
copy; callers needing a stable snapshot must copy it themselves (as
`record_gif` does with `fr.copy()`). -/
theorem get_frame_returns_by_reference (b : HBridge) (h : b.instBuf ≠ none) :
    (get_frame b).1 = b.instBuf ∧ (get_frame b).2.lastFrame = b.instBuf := by
  cases hb : b.instBuf with
  | none => exact absurd hb h
  | some r => simp [get_frame, _extract_frame, hb]

/-- Witness for `get_frame_returns_by_reference` at the concrete bridge. -/
theorem get_frame_returns_by_reference_witness :
    (get_frame pb0).1 = pb0.instBuf ∧ (get_frame pb0).2.lastFrame = pb0.instBuf :=
  get_frame_returns_by_reference pb0 (by decide)

end FrameHeap

namespace Bridge

theorem create_fail_inst (env : CEnv) (s s1 : BState) (e : String)
    (h : _import_and_create env s = (s1, some e)) : s1.inst = s.inst := by
  unfold _import_and_create at h
  by_cases h1 : env.libExists = false
  · rw [if_pos h1] at h
    injection h with ha _
    rw [← ha]
  · rw [if_neg h1] at h
    by_cases h2 : env.parserFound = false
    · rw [if_pos h2] at h
      injection h with ha _
      rw [← ha]
    · rw [if_neg h2] at h
      by_cases h3 : env.ciFound = false
      · rw [if_pos h3] at h
        injection h with ha _
        rw [← ha]
      · rw [if_neg h3] at h
        cases hres : env.ciResult with
        | error e0 =>
          rw [hres] at h
          dsimp only at h
          by_cases hf : fontCited e0 = true
          · rw [if_pos hf] at h
            injection h with ha _
            rw [← ha]
            rfl
          · rw [if_neg hf] at h
            injection h with ha _
            rw [← ha]
        | ok i =>
          rw [hres] at h
          dsimp only at h
          cases hex : env.extracted with
          | some sz =>
            rw [hex] at h
            dsimp only at h
            injection h with _ hb
            cases hb
          | none =>
            rw [hex] at h
            dsimp only at h
            injection h with _ hb
            cases hb

/-- C1 counterexample: against `env_missing` (the hosted repository lacks
`lib/menulcd.py`) a `reload()` on a Bridge holding live instance 7 raises —
the error is propagated — but afterwards the Bridge still holds instance 7:
the stale handle is kept, not cleared, so the Bridge is not left without a
valid hosted-module instance as the claim states. -/
theorem reload_keeps_stale_instance_cx :
    (reload env_missing s_live).2.isSome = true ∧
    (reload env_missing s_live).1.inst = some 7 := by decide

/-- C1 (amended): a `reload()` whose reconstruction step fails propagates
the error to the caller (after appending a `Reload failed` entry to the
error log), but it does not invalidate the hosted-module handle: the Bridge
keeps exactly the instance it held before the call — the stale previous
instance if one existed, or `none` only if no construction ever succeeded. -/
theorem reload_failure_preserves_instance (env : CEnv) (s : BState) (e : String)
    (h : (reload env s).2 = some e) :
    (reload env s).1.inst = s.inst ∧
    ("Reload failed: " ++ e) ∈ (reload env s).1.errors := by
  unfold reload at h ⊢
  rcases hic : _import_and_create env s with ⟨s1, oe⟩
  rw [hic] at h
  cases oe with
  | none => exact Option.noConfusion h
  | some e0 =>
    have he : e0 = e := Option.some.inj h
    subst he
    refine ⟨?_, ?_⟩
    · exact create_fail_inst env s s1 e0 hic
    · show ("Reload failed: " ++ e0) ∈ (push_error s1 ("Reload failed: " ++ e0)).errors
      simp [push_error]

/-- Witness for `reload_failure_preserves_instance` at the concrete failing
environment. -/
theorem reload_failure_preserves_instance_witness :
    (reload env_missing s_live).1.inst = s_live.inst ∧
    ("Reload failed: " ++ "Missing file: repo/lib/menulcd.py")
      ∈ (reload env_missing s_live).1.errors :=
  reload_failure_preserves_instance env_missing s_live
    "Missing file: repo/lib/menulcd.py" (by decide)

/-- C7: `set_display_profile(profile)` with any unsupported value raises the
configuration `BridgeError` immediately, triggers no reload, and returns the
Bridge state exactly as it was — every field, including the stored display
profile, the repository path and the error log, is unchanged. -/
theorem set_display_profile_invalid_rejected (env : CEnv) (s : BState)
    (p : Option String) (rl : Bool) (h : valid_profile p = false) :
    set_display_profile env s p rl
      = ((s, some "Invalid display profile (expected 1in44 or 1in3 or None)"), false) := by
  unfold set_display_profile
  rw [if_pos h]

/-- Witness for `set_display_profile_invalid_rejected` at the profile value
`"invalid"`. -/
theorem set_display_profile_invalid_rejected_witness :
    set_display_profile env_ok s_live (some "invalid") true
      = ((s_live, some "Invalid display profile (expected 1in44 or 1in3 or None)"), false) :=
  set_display_profile_invalid_rejected env_ok s_live (some "invalid") true (by decide)

end Bridge

namespace Dispatch

theorem loopCands_no_raise (inst : Inst) (sw : Bool) :
    ∀ cands : List String, (∀ n ∈ cands, inst.beh n ≠ .raises) →
      loopCands inst sw cands
        = (match cands.find? (fun n => inst.beh n == .ok) with
           | some m => ([m], [], .found)
           | none => ([], [], .exhausted)) := by
  intro cands
  induction cands with
  | nil => intro _; rfl
  | cons n rest ih =>
    intro h
    have hn : inst.beh n ≠ .raises := h n (List.mem_cons_self n rest)
    have hrest : ∀ x ∈ rest, inst.beh x ≠ .raises :=
      fun x hx => h x (List.mem_cons_of_mem n hx)
    cases hb : inst.beh n with
    | absent =>
      have hstep : loopCands inst sw (n :: rest) = loopCands inst sw rest := by
        simp only [loopCands, hb]
      have hp : ¬((fun x => inst.beh x == MBeh.ok) n) = true := by
        simp [hb]
      rw [hstep, List.find?_cons_of_neg (p := fun x => inst.beh x == MBeh.ok) rest hp]
      exact ih hrest
    | ok =>
      have hp : ((fun x => inst.beh x == MBeh.ok) n) = true := by
        simp [hb]
      rw [List.find?_cons_of_pos (p := fun x => inst.beh x == MBeh.ok) rest hp]
      simp only [loopCands, hb]
    | raises => exact absurd hb hn

theorem callIfExists_no_raise (inst : Inst) (sw : Bool) (cands : List String)
    (hne : cands ≠ [])
    (h : ∀ n ∈ cands ++ ["handle_key"], inst.beh n ≠ .raises) :
    _call_if_exists inst cands sw
      = (match (cands ++ ["handle_key"]).find? (fun n => inst.beh n == .ok) with
         | some m => ([m], [], some true)
         | none => ([], [], some false)) := by
  have hc : ∀ n ∈ cands, inst.beh n ≠ .raises :=
    fun n hn => h n (List.mem_append_left _ hn)
  have hk : inst.beh "handle_key" ≠ .raises :=
    h "handle_key" (List.mem_append_right _ (by simp))
  unfold _call_if_exists
  rw [loopCands_no_raise inst sw cands hc, List.find?_append]
  cases hf : cands.find? (fun n => inst.beh n == .ok) with
  | some m =>
    rw [Option.or_some]
  | none =>
    rw [Option.none_or]
    rcases cands with _ | ⟨c0, crest⟩
    · exact absurd rfl hne
    cases hhk : inst.beh "handle_key" with
    | absent =>
      have hpk : ¬((fun x => inst.beh x == MBeh.ok) "handle_key") = true := by
        simp [hhk]
      rw [List.find?_cons_of_neg (p := fun x => inst.beh x == MBeh.ok) [] hpk]
      rfl
    | ok =>
      have hpk : ((fun x => inst.beh x == MBeh.ok) "handle_key") = true := by
        simp [hhk]
      rw [List.find?_cons_of_pos (p := fun x => inst.beh x == MBeh.ok) [] hpk]
      rfl
    | raises => exact absurd hhk hk

theorem runAction_first_ok (inst : Inst) (pr : String) (fbs : List String)
    (hne : fbs ≠ [])
    (h : ∀ n ∈ fullCands pr fbs, inst.beh n ≠ .raises) (m : String)
    (hf : (fullCands pr fbs).find? (fun n => inst.beh n == .ok) = some m) :
    (runAction inst pr fbs).invoked = [m] ∧ (runAction inst pr fbs).raised = false := by
  have hpr : inst.beh pr ≠ .raises := h pr (by simp [fullCands])
  have hrest : ∀ n ∈ fbs ++ ["handle_key"], inst.beh n ≠ .raises :=
    fun n hn => h n (List.mem_cons_of_mem pr hn)
  cases hb : inst.beh pr with
  | raises => exact absurd hb hpr
  | ok =>
    have hp : ((fun x => inst.beh x == MBeh.ok) pr) = true := by
      simp [hb]
    have hfc : (fullCands pr fbs).find? (fun n => inst.beh n == .ok) = some pr :=
      List.find?_cons_of_pos (p := fun x => inst.beh x == MBeh.ok) (fbs ++ ["handle_key"]) hp
    rw [hfc] at hf
    have hm : pr = m := Option.some.inj hf
    subst hm
    have hra : runAction inst pr fbs = ⟨[pr], [], false⟩ := by
      simp only [runAction, hb]
    rw [hra]
    exact ⟨rfl, rfl⟩
  | absent =>
    have hp : ¬((fun x => inst.beh x == MBeh.ok) pr) = true := by
      simp [hb]
    have hf2 : (fbs ++ ["handle_key"]).find? (fun n => inst.beh n == .ok) = some m := by
      have hstep := List.find?_cons_of_neg (p := fun x => inst.beh x == MBeh.ok)
        (fbs ++ ["handle_key"]) hp
      unfold fullCands at hf
      rw [hstep] at hf
      exact hf
    have hcall : _call_if_exists inst fbs false = ([m], [], some true) := by
      rw [callIfExists_no_raise inst false fbs hne hrest, hf2]
    have hra : runAction inst pr fbs = ⟨[m], [], false⟩ := by
      simp only [runAction, hb, hcall, Option.isNone_some]
    rw [hra]
    exact ⟨rfl, rfl⟩

/-- C2: for every logical action (up, down, left, right, enter, back) whose
dispatch row is in `actionTable`, if the hosted instance exposes at least
one candidate from the action's resolution list — `find?` names the first
exposed one in documented priority order: semantic primary, then the generic
fallback names, then the generic `handle_key` handler — and no exposed
candidate raises when invoked, then one call of the action invokes exactly
that one candidate and returns without raising. -/
theorem action_dispatch_first_exposed (pr : String) (fbs : List String)
    (hmem : (pr, fbs) ∈ actionTable) (inst : Inst) (m : String)
    (h : ∀ n ∈ fullCands pr fbs, inst.beh n ≠ .raises)
    (hf : (fullCands pr fbs).find? (fun n => inst.beh n == .ok) = some m) :
    (runAction inst pr fbs).invoked = [m] ∧ (runAction inst pr fbs).raised = false := by
  have hne : fbs ≠ [] := by
    simp only [actionTable, List.mem_cons, List.not_mem_nil, or_false, Prod.mk.injEq] at hmem
    rcases hmem with ⟨-, h2⟩ | ⟨-, h2⟩ | ⟨-, h2⟩ | ⟨-, h2⟩ | ⟨-, h2⟩ | ⟨-, h2⟩ <;>
      subst h2 <;> simp
  exact runAction_first_ok inst pr fbs hne h m hf

/-- Witness for `action_dispatch_first_exposed`: an instance exposing only
`nav_up` sees exactly its `nav_up` invoked by the up action. -/
theorem action_dispatch_first_exposed_witness :
    (runAction instNav "change_pointer" ["button_up", "on_up", "nav_up", "up"]).invoked
      = ["nav_up"] ∧
    (runAction instNav "change_pointer" ["button_up", "on_up", "nav_up", "up"]).raised
      = false :=
  action_dispatch_first_exposed "change_pointer" ["button_up", "on_up", "nav_up", "up"]
    (by decide) instNav "nav_up" (by decide) (by decide)

/-- C6 counterexample: against an instance exposing none of the candidates
and no `handle_key`, the up action completes without raising — but its error
log records nothing: the dropped action is not recorded, contradicting the
claim that it is appended to the caller-queryable error log. -/
theorem action_drop_not_logged_cx :
    (runAction instEmpty "change_pointer" ["button_up", "on_up", "nav_up", "up"]).errors
      = [] ∧
    (runAction instEmpty "change_pointer" ["button_up", "on_up", "nav_up", "up"]).raised
      = false := by decide

/-- C6 (amended): for every logical action, if the hosted instance exposes
none of the action's candidate method names and no generic key handler, the
action call returns without raising — but the drop is silent: nothing is
invoked and nothing is recorded in the Bridge's error log. -/
theorem action_drop_silent_no_raise (pr : String) (fbs : List String)
    (hmem : (pr, fbs) ∈ actionTable) (inst : Inst)
    (h : ∀ n ∈ fullCands pr fbs, inst.beh n = .absent) :
    runAction inst pr fbs = ⟨[], [], false⟩ := by
  have hne : fbs ≠ [] := by
    simp only [actionTable, List.mem_cons, List.not_mem_nil, or_false, Prod.mk.injEq] at hmem
    rcases hmem with ⟨-, h2⟩ | ⟨-, h2⟩ | ⟨-, h2⟩ | ⟨-, h2⟩ | ⟨-, h2⟩ | ⟨-, h2⟩ <;>
      subst h2 <;> simp
  have hb : inst.beh pr = .absent := h pr (by simp [fullCands])
  have hrest : ∀ n ∈ fbs ++ ["handle_key"], inst.beh n ≠ .raises := by
    intro n hn
    rw [h n (List.mem_cons_of_mem pr hn)]
    decide
  have hfind : (fbs ++ ["handle_key"]).find? (fun n => inst.beh n == .ok) = none := by
    rw [List.find?_eq_none]
    intro x hx
    rw [h x (List.mem_cons_of_mem pr hx)]
    decide
  have hcall : _call_if_exists inst fbs false = ([], [], some false) := by
    rw [callIfExists_no_raise inst false fbs hne hrest, hfind]
  simp only [runAction, hb, hcall, Option.isNone_some]

/-- Witness for `action_drop_silent_no_raise` at the enter action on an
instance exposing nothing. -/
theorem action_drop_silent_no_raise_witness :
    runAction instEmpty "enter_menu" ["button_enter", "on_enter", "select", "enter", "ok"]
      = ⟨[], [], false⟩ :=
  action_drop_silent_no_raise "enter_menu"
    ["button_enter", "on_enter", "select", "enter", "ok"] (by decide) instEmpty (by decide)

end Dispatch

namespace Dispatch

theorem callIfExists_not_raised (inst : Inst) (sw : Bool) (cands : List String)
    (hne : cands ≠ [])
    (h : ∀ n ∈ cands ++ ["handle_key"], inst.beh n ≠ .raises) :
    (_call_if_exists inst cands sw).2.2 ≠ none := by
  rw [callIfExists_no_raise inst sw cands hne h]
  cases (cands ++ ["handle_key"]).find? (fun n => inst.beh n == .ok) <;> simp

theorem runAction_no_raise_flag (inst : Inst) (pr : String) (fbs : List String)
    (hne : fbs ≠ []) (h : ∀ n : String, inst.beh n ≠ .raises) :
    (runAction inst pr fbs).raised = false := by
  cases hb : inst.beh pr with
  | raises => exact absurd hb (h pr)
  | ok => simp only [runAction, hb]
  | absent =>
    simp only [runAction, hb]
    rw [callIfExists_no_raise inst false fbs hne (fun n _ => h n)]
    cases hfv : (fbs ++ ["handle_key"]).find? (fun n => inst.beh n == .ok) <;> rfl

theorem iter_replicate (inst : Inst) (a : Act) (pr : String) (fbs : List String)
    (h : (runAction inst pr fbs).raised = false) :
    ∀ n : Nat, iterActions inst a pr fbs n
      = List.replicate n (a, runAction inst pr fbs) := by
  intro n
  induction n with
  | zero => rfl
  | succ k ih =>
    simp only [iterActions, h, Bool.false_eq_true, if_false, ih, List.replicate_succ]

theorem any_replicate_false {α : Type} (n : Nat) (x : α) (p : α → Bool)
    (h : p x = false) : (List.replicate n x).any p = false := by
  induction n with
  | zero => rfl
  | succ k ih => simp [List.replicate_succ, h, ih]

/-- C9: whenever the dedicated-encoder dispatch of `action_encoder(delta)` —
tried first, over the candidates `encoder`, `on_encoder`, `rotate`,
`on_rotate` and the generic handler — reports that nothing succeeded, and no
method of the instance raises, the call issues exactly `|delta|` repeated
navigation calls: `action_down` ones for positive `delta`, `action_up` ones
for negative `delta`, and none at all when `delta` is zero; no exception
escapes. -/
theorem action_encoder_fallback_counts (inst : Inst) (delta : Int)
    (henc : (_call_if_exists inst encCands true).2.2 = some false)
    (hnr : ∀ n : String, inst.beh n ≠ .raises) :
    ((action_encoder inst delta).issued.map Prod.fst
        = (if 0 < delta then List.replicate delta.natAbs Act.down
           else if delta < 0 then List.replicate delta.natAbs Act.up
           else [])) ∧
    (action_encoder inst delta).issued.length = delta.natAbs ∧
    (action_encoder inst delta).raised = false := by
  have hdflag : (runAction inst downRow.1 downRow.2).raised = false :=
    runAction_no_raise_flag inst downRow.1 downRow.2 (by simp [downRow]) hnr
  have huflag : (runAction inst upRow.1 upRow.2).raised = false :=
    runAction_no_raise_flag inst upRow.1 upRow.2 (by simp [upRow]) hnr
  by_cases hd : 0 < delta
  · have henc' : action_encoder inst delta
        = ⟨(_call_if_exists inst encCands true).1, (_call_if_exists inst encCands true).2.1,
           iterActions inst .down downRow.1 downRow.2 delta.natAbs,
           (iterActions inst .down downRow.1 downRow.2 delta.natAbs).any fun e => e.2.raised⟩ := by
      simp only [action_encoder, henc, if_pos hd]
    rw [henc', iter_replicate inst .down downRow.1 downRow.2 hdflag]
    refine ⟨?_, ?_, ?_⟩
    · rw [if_pos hd, List.map_replicate]
    · rw [List.length_replicate]
    · exact any_replicate_false _ _ _ hdflag
  · by_cases hdn : delta < 0
    · have henc' : action_encoder inst delta
          = ⟨(_call_if_exists inst encCands true).1, (_call_if_exists inst encCands true).2.1,
             iterActions inst .up upRow.1 upRow.2 delta.natAbs,
             (iterActions inst .up upRow.1 upRow.2 delta.natAbs).any fun e => e.2.raised⟩ := by
        simp only [action_encoder, henc, if_neg hd, if_pos hdn]
      rw [henc', iter_replicate inst .up upRow.1 upRow.2 huflag]
      refine ⟨?_, ?_, ?_⟩
      · rw [if_neg hd, if_pos hdn, List.map_replicate]
      · rw [List.length_replicate]
      · exact any_replicate_false _ _ _ huflag
    · have hz : delta = 0 := by omega
      subst hz
      have henc' : action_encoder inst 0
          = ⟨(_call_if_exists inst encCands true).1, (_call_if_exists inst encCands true).2.1,
             [], false⟩ := by
        simp only [action_encoder, henc]
        rfl
      rw [henc']
      refine ⟨?_, ?_, ?_⟩
      · simp
      · rfl
      · rfl

/-- Witness for `action_encoder_fallback_counts` at `delta = -2` on an
instance exposing nothing. -/
theorem action_encoder_fallback_counts_witness :
    ((action_encoder instPlain (-2)).issued.map Prod.fst
        = (if 0 < (-2 : Int) then List.replicate (-2 : Int).natAbs Act.down
           else if (-2 : Int) < 0 then List.replicate (-2 : Int).natAbs Act.up
           else [])) ∧
    (action_encoder instPlain (-2)).issued.length = (-2 : Int).natAbs ∧
    (action_encoder instPlain (-2)).raised = false :=
  action_encoder_fallback_counts instPlain (-2) (by decide) (fun n => by simp [instPlain])

end Dispatch
